import Mathlib

/-!
Shallow embedding of the claude-code-web session orchestrator
(src/core/application/claude/sendMessageStream.ts) together with the
authorization data shapes of the zod schema module (permission error
keywords, allowed-tool grants, continue message, authorization state).

Collaborator calls (session repository, claude service) are modelled as
functions supplied through a `Context`, each returning either a resolved
neverthrow result or a thrown exception.  The orchestrator is embedded as
a total function that additionally records the ordered list of
collaborator calls (the effect trace) and the ordered list of
console-error log events, so that claims about side effects and logging
are statable.
-/

namespace CCW

/-- neverthrow-style tagged result value. -/
inductive Result (α ε : Type) where
  | ok (value : α)
  | err (error : ε)
  deriving DecidableEq

/-- Outcome of a JavaScript-level collaborator call: the promise either
resolves to a neverthrow `Result`, or it rejects / the call throws. -/
inductive JSOutcome (α : Type) where
  | value (r : Result α String)
  | thrown (e : String)
  deriving DecidableEq

/-- Session record, from the spec data model and the upsert call sites:
id, optional projectId, optional name, working directory. -/
structure Session where
  id : String
  projectId : Option String
  name : Option String
  cwd : String
  deriving DecidableEq

/-- Modelled from the spec: `StructuredMessage` (the SDKMessage union of
src/core/domain/claude/types, which is not among the visible sources).
One variant is a result message carrying the agent-assigned session
identifier; all other variants are collapsed into `other` since the
orchestrator only ever discriminates on `isResultMessage`. -/
inductive SDKMessage where
  | result (session_id : String)
  | other (tag : String)
  deriving DecidableEq

/-- Discriminator for the result variant (src/core/domain/claude/types). -/
def isResultMessage : SDKMessage → Bool
  | .result _ => true
  | .other _ => false

/-- Raw input of the orchestrator (sendMessageStreamInputSchema shape). -/
structure StreamInput where
  message : String
  sessionId : Option String
  cwd : Option String
  allowedTools : Option (List String)
  bypassPermissions : Option Bool
  deriving DecidableEq

/-- Parameters forwarded to claudeService.sendMessageStream
(lines 89-98 of sendMessageStream.ts). -/
structure ClaudeParams where
  message : String
  sessionId : Option String
  cwd : Option String
  allowedTools : Option (List String)
  bypassPermissions : Option Bool
  deriving DecidableEq

/-- One recorded collaborator call. -/
inductive Effect where
  | findById (id : String)
  | claudeCall (p : ClaudeParams)
  | upsert (p : Session)
  deriving DecidableEq

/-- Error cause attached to an ApplicationError: the validation issue, a
collaborator-returned cause, or a caught thrown value. -/
inductive ErrCause where
  | validationIssue
  | cause (c : String)
  | exn (e : String)
  deriving DecidableEq

/-- ApplicationError: tag message plus optional cause (lib/error). -/
structure AppError where
  message : String
  cause : Option ErrCause
  deriving DecidableEq

/-- Collaborators consumed by the orchestrator: sessionRepository.findById,
claudeService.sendMessageStream and sessionRepository.upsert.  The chunk
sink is opaque to every claim and is therefore not modelled. -/
structure Context where
  findById : String → JSOutcome (Option Session)
  claudeSendMessageStream : ClaudeParams → JSOutcome (List SDKMessage)
  upsert : Session → JSOutcome Session

/-- JavaScript truthiness of an optional string: present and non-empty. -/
def truthyStr : Option String → Bool
  | some s => decide (1 ≤ s.length)
  | none => false

/-- zod `z.string().min(1).optional()`: absent, or present with length at
least one. -/
def optStrMin1 : Option String → Bool
  | some s => decide (1 ≤ s.length)
  | none => true

/-- sendMessageStreamInputSchema: message min 1, optional sessionId min 1,
optional cwd min 1, allowedTools an arbitrary string array, plus the
refinement that cwd is required when no sessionId is provided. -/
def sendMessageStreamInputValid (i : StreamInput) : Bool :=
  decide (1 ≤ i.message.length) && optStrMin1 i.sessionId && optStrMin1 i.cwd
    && (truthyStr i.sessionId || truthyStr i.cwd)

/-- Modelled from the spec: `validate` of lib/validation (not among the
visible sources) is a pure function mapping raw input to either the
validated value or a validation error. -/
def validate (i : StreamInput) : Result StreamInput Unit :=
  if sendMessageStreamInputValid i then .ok i else .err ()

/-- Modelled from the spec: `sessionIdSchema` of core/domain/session/types
(not among the visible sources).  The spec data model says a Session id is
an opaque non-empty string; zod `.parse` throws on a missing value and on
a non-conforming one. -/
def sessionIdParse : Option String → Except String String
  | some s =>
      if 1 ≤ s.length then .ok s else .error "ZodError: invalid session id"
  | none => .error "ZodError: expected string, received undefined"

/-- Session-id extraction of lines 123-127: map every message to its
session id when it is a result message and to null otherwise, drop the
nulls, take element zero. -/
def extractSessionId (messages : List SDKMessage) : Option String :=
  ((messages.map fun m =>
      match m with
      | .result sid => some sid
      | .other _ => none).filterMap id).head?

/-- Console-error log events, in emission order (tags only). -/
abbrev Logs := List String

/-- Collaborator calls, in issue order. -/
abbrev Trace := List Effect

/-- Execution state of the orchestrator body: continue with a value,
return an error result early, or propagate a thrown exception.  Logs and
trace accumulated so far are carried in every case. -/
inductive Step (α : Type) where
  | next (a : α) (l : Logs) (t : Trace)
  | early (e : AppError) (l : Logs) (t : Trace)
  | threw (x : String) (l : Logs) (t : Trace)

/-- Sequencing of body steps: early returns and thrown exceptions
short-circuit. -/
def Step.bind {α β : Type} : Step α → (α → Logs → Trace → Step β) → Step β
  | .next a l t, f => f a l t
  | .early e l t, _ => .early e l t
  | .threw x l t, _ => .threw x l t

/-- Lines 54-86: when a sessionId is supplied, parse it and fetch the
session from the repository; a repository error or an absent record ends
the call, otherwise the session is bound.  Without a sessionId the
session variable stays null. -/
def resolveSessionStep (ctx : Context) (params : StreamInput) (l : Logs)
    (t : Trace) : Step (Option Session) :=
  if truthyStr params.sessionId then
    match sessionIdParse params.sessionId with
    | .error e => .threw e l t
    | .ok sid =>
      match ctx.findById sid with
      | .thrown e => .threw e l (t ++ [.findById sid])
      | .value (.err c) =>
          .early ⟨"Failed to get session", some (.cause c)⟩
            (l ++ ["Session retrieval failed"]) (t ++ [.findById sid])
      | .value (.ok none) =>
          .early ⟨"Session not found", none⟩
            (l ++ ["Session not found"]) (t ++ [.findById sid])
      | .value (.ok (some s)) => .next (some s) l (t ++ [.findById sid])
  else .next none l t

/-- Parameter object of the claude call (lines 90-96): resume with the
resolved session id when one exists, effective cwd is the caller-supplied
cwd when truthy and otherwise the resolved session cwd. -/
def buildClaudeParams (params : StreamInput) (session : Option Session) :
    ClaudeParams :=
  { message := params.message
    sessionId :=
      match session with
      | some s => if 1 ≤ s.id.length then some s.id else none
      | none => none
    cwd :=
      if truthyStr params.cwd then params.cwd
      else
        match session with
        | some s => some s.cwd
        | none => none
    allowedTools := params.allowedTools
    bypassPermissions := params.bypassPermissions }

/-- Lines 89-111: the single claude streaming call; a returned error is
wrapped, a thrown exception propagates to the boundary catch. -/
def claudeCallStep (ctx : Context) (params : StreamInput)
    (session : Option Session) (l : Logs) (t : Trace) :
    Step (List SDKMessage) :=
  match ctx.claudeSendMessageStream (buildClaudeParams params session) with
  | .thrown e => .threw e l (t ++ [.claudeCall (buildClaudeParams params session)])
  | .value (.err c) =>
      .early ⟨"Failed to send message to Claude", some (.cause c)⟩
        (l ++ ["Claude API streaming call failed"])
        (t ++ [.claudeCall (buildClaudeParams params session)])
  | .value (.ok msgs) =>
      .next msgs l (t ++ [.claudeCall (buildClaudeParams params session)])

/-- Lines 113-144: on the new-session path, require a truthy cwd, extract
the agent-assigned id (the parse throws when no result message produced
one), and create the record via upsert with absent projectId and name. -/
def createSessionStep (ctx : Context) (params : StreamInput)
    (session : Option Session) (messages : List SDKMessage) (l : Logs)
    (t : Trace) : Step (Option Session) :=
  if truthyStr params.sessionId then .next session l t
  else
    match params.cwd with
    | none =>
        .early ⟨"cwd is required when creating a new session", none⟩
          (l ++ ["Missing cwd for new session"]) t
    | some cwd =>
      if cwd.length = 0 then
        .early ⟨"cwd is required when creating a new session", none⟩
          (l ++ ["Missing cwd for new session"]) t
      else
        match sessionIdParse (extractSessionId messages) with
        | .error e => .threw e l t
        | .ok sid =>
          match ctx.upsert ⟨sid, none, none, cwd⟩ with
          | .thrown e => .threw e l (t ++ [.upsert ⟨sid, none, none, cwd⟩])
          | .value (.err c) =>
              .early ⟨"Failed to create session", some (.cause c)⟩
                (l ++ ["Session creation failed"])
                (t ++ [.upsert ⟨sid, none, none, cwd⟩])
          | .value (.ok s) =>
              .next (some s) l (t ++ [.upsert ⟨sid, none, none, cwd⟩])

/-- Lines 146-148: defensive null check on the session variable. -/
def nullCheckStep (session : Option Session) (l : Logs) (t : Trace) :
    Step Session :=
  match session with
  | none => .early ⟨"Session was not created or found", none⟩ l t
  | some s => .next s l t

/-- Lines 150-161: unconditional post-communication refresh upsert; a
returned error is swallowed without logging and the in-memory session is
kept, a success replaces the session with the stored value. -/
def refreshStep (ctx : Context) (s : Session) (l : Logs) (t : Trace) :
    Step Session :=
  match ctx.upsert ⟨s.id, s.projectId, s.name, s.cwd⟩ with
  | .thrown e => .threw e l (t ++ [.upsert ⟨s.id, s.projectId, s.name, s.cwd⟩])
  | .value (.err _) => .next s l (t ++ [.upsert ⟨s.id, s.projectId, s.name, s.cwd⟩])
  | .value (.ok s2) => .next s2 l (t ++ [.upsert ⟨s.id, s.projectId, s.name, s.cwd⟩])

/-- Body of the try block up to (excluding) the refresh upsert: session
resolution, claude call, session creation, null check. -/
def bodyUntilRefresh (ctx : Context) (params : StreamInput) :
    Step (Session × List SDKMessage) :=
  (resolveSessionStep ctx params [] []).bind fun session l t =>
    (claudeCallStep ctx params session l t).bind fun messages l t =>
      (createSessionStep ctx params session messages l t).bind fun session2 l t =>
        (nullCheckStep session2 l t).bind fun s l t =>
          .next (s, messages) l t

/-- Full body of the try block (lines 53-166). -/
def runBody (ctx : Context) (params : StreamInput) :
    Step (Session × List SDKMessage) :=
  (bodyUntilRefresh ctx params).bind fun sm l t =>
    (refreshStep ctx sm.1 l t).bind fun s2 l t => .next (s2, sm.2) l t

/-- Observable outcome of one run call: the returned tagged result, the
log events and the collaborator-call trace. -/
structure RunOutput where
  result : Result (Session × List SDKMessage) AppError
  logs : Logs
  trace : Trace
  deriving DecidableEq

/-- The orchestrator sendMessageStream (lines 37-175): validate, run the
body, and convert a thrown exception into the generic boundary error in
the catch block. -/
def sendMessageStream (ctx : Context) (input : StreamInput) : RunOutput :=
  match validate input with
  | .err _ =>
      ⟨.err ⟨"Invalid input", some .validationIssue⟩,
        ["Input validation failed"], []⟩
  | .ok params =>
    match runBody ctx params with
    | .next sm l t => ⟨.ok sm, l, t⟩
    | .early e l t => ⟨.err e, l, t⟩
    | .threw x l t =>
        ⟨.err ⟨"Unexpected error in sendMessageStream", some (.exn x)⟩,
          l ++ ["Unexpected error occurred"], t⟩

/-- Character class [A-Za-z_], the permitted first character of a tool
name in the allowed-tool regex. -/
def isNameStart (c : Char) : Bool :=
  ('A' ≤ c && c ≤ 'Z') || ('a' ≤ c && c ≤ 'z') || c = '_'

/-- Word character [A-Za-z0-9_]. -/
def isNameChar (c : Char) : Bool :=
  isNameStart c || ('0' ≤ c && c ≤ '9')

/-- JavaScript regex dot: any character except the four line
terminators. -/
def isDotChar (c : Char) : Bool :=
  !(c = '\n' || c = '\r' || c = Char.ofNat 0x2028 || c = Char.ofNat 0x2029)

/-- After the opening parenthesis the remaining characters must be a
non-empty dot-class body followed by the final closing parenthesis. -/
def bodyCloseCheck (cs : List Char) : Bool :=
  decide (2 ≤ cs.length) && (cs.getLast? == some ')')
    && cs.dropLast.all isDotChar

/-- Consume the rest of the tool name (word characters), then require the
opening parenthesis and a valid body.  Since the parenthesis is not a
word character, the backtracking regex match is equivalent to this
maximal-munch scan. -/
def afterName : List Char → Bool
  | [] => false
  | c :: cs =>
    if isNameChar c then afterName cs
    else if c = '(' then bodyCloseCheck cs
    else false

/-- allowedToolSchema regex: a name starting with a letter or underscore
followed by word characters, then a parenthesized non-empty argument
body, anchored at both ends. -/
def allowedToolMatches (s : String) : Bool :=
  match s.data with
  | [] => false
  | c :: cs => isNameStart c && afterName cs

/-- JSON value, the raw input type of the zod schemas. -/
inductive Json where
  | null
  | bool (b : Bool)
  | str (s : String)
  | num (n : Int)
  | arr (items : List Json)
  | obj (fields : List (String × Json))

/-- Field lookup on a JSON object; anything else has no fields. -/
def Json.get : Json → String → Option Json
  | .obj fields, key => (fields.find? (fun p => p.1 == key)).map (fun p => p.2)
  | _, _ => none

/-- zod z.string(). -/
def parseStr : Json → Option String
  | .str s => some s
  | _ => none

/-- zod z.boolean(). -/
def parseBool : Json → Option Bool
  | .bool b => some b
  | _ => none

/-- zod z.record(z.string(), z.any()): any object, fields kept as is. -/
def parseRecordAny : Json → Option (List (String × Json))
  | .obj fields => some fields
  | _ => none

/-- zod array schema: every element must parse, results in order. -/
def parseArray {α : Type} (p : Json → Option α) : List Json → Option (List α)
  | [] => some []
  | j :: js =>
    match p j with
    | none => none
    | some a =>
      match parseArray p js with
      | none => none
      | some tail => some (a :: tail)

/-- zod .nullable(): null maps to the absent value, anything else must
satisfy the inner schema. -/
def parseNullable {α : Type} (p : Json → Option α) : Json → Option (Option α)
  | .null => some none
  | j => (p j).map some

/-- permissionErrorKeywordsSchema: union of the three string literals. -/
def permissionErrorKeywordsParse : Json → Option String
  | .str s =>
      if s = "requested permissions" || s = "haven\x27t granted it yet"
          || s = "permission denied"
      then some s else none
  | _ => none

/-- allowedToolSchema: a string matching the tool-grant regex. -/
def allowedToolParse : Json → Option String
  | .str s => if allowedToolMatches s then some s else none
  | _ => none

/-- originalToolUse shape of permissionRequestSchema. -/
structure OriginalToolUse where
  id : String
  name : String
  input : List (String × Json)

/-- permissionRequestSchema value. -/
structure PermissionRequest where
  toolName : String
  toolCommand : String
  originalToolUse : OriginalToolUse

/-- Parser of the nested originalToolUse object. -/
def originalToolUseParse (j : Json) : Option OriginalToolUse :=
  match (j.get "id").bind parseStr, (j.get "name").bind parseStr,
      (j.get "input").bind parseRecordAny with
  | some id, some name, some input => some ⟨id, name, input⟩
  | _, _, _ => none

/-- permissionRequestSchema: toolName is any string (toolTypeSchema),
toolCommand a string, originalToolUse the nested object. -/
def permissionRequestParse (j : Json) : Option PermissionRequest :=
  match (j.get "toolName").bind parseStr, (j.get "toolCommand").bind parseStr,
      (j.get "originalToolUse").bind originalToolUseParse with
  | some tn, some tc, some otu => some ⟨tn, tc, otu⟩
  | _, _, _ => none

/-- continueMessageSchema value. -/
structure ContinueMessage where
  message : String
  allowedTools : List String

/-- zod z.literal with the string "continue". -/
def parseContinueLiteral : Json → Option String
  | .str s => if s = "continue" then some s else none
  | _ => none

/-- continueMessageSchema: the literal "continue" plus an array of
allowed-tool grants each matching the regex. -/
def continueMessageParse (j : Json) : Option ContinueMessage :=
  match (j.get "message").bind parseContinueLiteral, j.get "allowedTools" with
  | some m, some (.arr items) =>
    match parseArray allowedToolParse items with
    | some ts => some ⟨m, ts⟩
    | none => none
  | _, _ => none

/-- authorizationStateSchema value. -/
structure AuthorizationState where
  isWaitingForPermission : Bool
  pendingRequest : Option PermissionRequest

/-- authorizationStateSchema: a boolean flag and a nullable pending
request; the schema carries no refinement relating the two fields. -/
def authorizationStateParse (j : Json) : Option AuthorizationState :=
  match (j.get "isWaitingForPermission").bind parseBool,
      (j.get "pendingRequest").bind (parseNullable permissionRequestParse) with
  | some w, some pr => some ⟨w, pr⟩
  | _, _ => none

/-! Helper lemmas shared by the claim theorems. -/

theorem Step.bind_next {α β : Type} (a : α) (l : Logs) (t : Trace)
    (f : α → Logs → Trace → Step β) : Step.bind (.next a l t) f = f a l t := rfl

theorem Step.bind_early {α β : Type} (e : AppError) (l : Logs) (t : Trace)
    (f : α → Logs → Trace → Step β) :
    Step.bind (.early e l t) f = .early e l t := rfl

theorem Step.bind_threw {α β : Type} (x : String) (l : Logs) (t : Trace)
    (f : α → Logs → Trace → Step β) :
    Step.bind (.threw x l t) f = .threw x l t := rfl

theorem validate_ok_self (i : StreamInput)
    (h : sendMessageStreamInputValid i = true) : validate i = .ok i := by
  simp [validate, h]

theorem validate_ok_valid (i p : StreamInput) (h : validate i = .ok p) :
    sendMessageStreamInputValid i = true ∧ p = i := by
  by_cases hv : sendMessageStreamInputValid i = true
  · refine ⟨hv, ?_⟩
    simp [validate, hv] at h
    exact h.symm
  · simp [validate, hv] at h

theorem valid_cwd_len (i : StreamInput) (c : String)
    (h : sendMessageStreamInputValid i = true) (hc : i.cwd = some c) :
    1 ≤ c.length := by
  simp only [sendMessageStreamInputValid, Bool.and_eq_true] at h
  have := h.1.2
  rw [hc] at this
  simpa [optStrMin1] using this

theorem valid_sessionId_len (i : StreamInput) (s : String)
    (h : sendMessageStreamInputValid i = true) (hs : i.sessionId = some s) :
    1 ≤ s.length := by
  simp only [sendMessageStreamInputValid, Bool.and_eq_true] at h
  have := h.1.1.2
  rw [hs] at this
  simpa [optStrMin1] using this

theorem resolveSessionStep_none (ctx : Context) (params : StreamInput)
    (l : Logs) (t : Trace) (h : params.sessionId = none) :
    resolveSessionStep ctx params l t = .next none l t := by
  simp [resolveSessionStep, truthyStr, h]

theorem resolveSessionStep_found (ctx : Context) (params : StreamInput)
    (l : Logs) (t : Trace) (sid : String) (s : Session)
    (h : params.sessionId = some sid) (hlen : 1 ≤ sid.length)
    (hf : ctx.findById sid = .value (.ok (some s))) :
    resolveSessionStep ctx params l t = .next (some s) l (t ++ [.findById sid]) := by
  simp [resolveSessionStep, truthyStr, h, hlen, sessionIdParse, hf]

theorem resolveSessionStep_absent (ctx : Context) (params : StreamInput)
    (l : Logs) (t : Trace) (sid : String)
    (h : params.sessionId = some sid) (hlen : 1 ≤ sid.length)
    (hf : ctx.findById sid = .value (.ok none)) :
    resolveSessionStep ctx params l t =
      .early ⟨"Session not found", none⟩ (l ++ ["Session not found"])
        (t ++ [.findById sid]) := by
  simp [resolveSessionStep, truthyStr, h, hlen, sessionIdParse, hf]

theorem resolveSessionStep_err (ctx : Context) (params : StreamInput)
    (l : Logs) (t : Trace) (sid : String) (c : String)
    (h : params.sessionId = some sid) (hlen : 1 ≤ sid.length)
    (hf : ctx.findById sid = .value (.err c)) :
    resolveSessionStep ctx params l t =
      .early ⟨"Failed to get session", some (.cause c)⟩
        (l ++ ["Session retrieval failed"]) (t ++ [.findById sid]) := by
  simp [resolveSessionStep, truthyStr, h, hlen, sessionIdParse, hf]

theorem claudeCallStep_ok (ctx : Context) (params : StreamInput)
    (session : Option Session) (l : Logs) (t : Trace) (msgs : List SDKMessage)
    (h : ctx.claudeSendMessageStream (buildClaudeParams params session) =
      .value (.ok msgs)) :
    claudeCallStep ctx params session l t =
      .next msgs l (t ++ [.claudeCall (buildClaudeParams params session)]) := by
  simp [claudeCallStep, h]

theorem claudeCallStep_thrown (ctx : Context) (params : StreamInput)
    (session : Option Session) (l : Logs) (t : Trace) (e : String)
    (h : ctx.claudeSendMessageStream (buildClaudeParams params session) =
      .thrown e) :
    claudeCallStep ctx params session l t =
      .threw e l (t ++ [.claudeCall (buildClaudeParams params session)]) := by
  simp [claudeCallStep, h]

theorem createSessionStep_existing (ctx : Context) (params : StreamInput)
    (session : Option Session) (messages : List SDKMessage) (l : Logs)
    (t : Trace) (sid : String)
    (h : params.sessionId = some sid) (hlen : 1 ≤ sid.length) :
    createSessionStep ctx params session messages l t = .next session l t := by
  simp [createSessionStep, truthyStr, h, hlen]

theorem createSessionStep_new_ok (ctx : Context) (params : StreamInput)
    (session : Option Session) (messages : List SDKMessage) (l : Logs)
    (t : Trace) (c sid : String) (s : Session)
    (h : params.sessionId = none) (hc : params.cwd = some c)
    (hclen : 1 ≤ c.length) (hex : extractSessionId messages = some sid)
    (hslen : 1 ≤ sid.length)
    (hup : ctx.upsert ⟨sid, none, none, c⟩ = .value (.ok s)) :
    createSessionStep ctx params session messages l t =
      .next (some s) l (t ++ [.upsert ⟨sid, none, none, c⟩]) := by
  have hc0 : ¬ c.length = 0 := by omega
  simp [createSessionStep, truthyStr, h, hc, hc0, hex, sessionIdParse, hslen, hup]

theorem createSessionStep_new_noid (ctx : Context) (params : StreamInput)
    (session : Option Session) (messages : List SDKMessage) (l : Logs)
    (t : Trace) (c : String)
    (h : params.sessionId = none) (hc : params.cwd = some c)
    (hclen : 1 ≤ c.length) (hex : extractSessionId messages = none) :
    createSessionStep ctx params session messages l t =
      .threw "ZodError: expected string, received undefined" l t := by
  have hc0 : ¬ c.length = 0 := by omega
  simp [createSessionStep, truthyStr, h, hc, hc0, hex, sessionIdParse]

theorem nullCheckStep_some (s : Session) (l : Logs) (t : Trace) :
    nullCheckStep (some s) l t = .next s l t := rfl

theorem refreshStep_ok (ctx : Context) (s s2 : Session) (l : Logs) (t : Trace)
    (h : ctx.upsert ⟨s.id, s.projectId, s.name, s.cwd⟩ = .value (.ok s2)) :
    refreshStep ctx s l t =
      .next s2 l (t ++ [.upsert ⟨s.id, s.projectId, s.name, s.cwd⟩]) := by
  simp [refreshStep, h]

theorem refreshStep_err (ctx : Context) (s : Session) (l : Logs) (t : Trace)
    (c : String)
    (h : ctx.upsert ⟨s.id, s.projectId, s.name, s.cwd⟩ = .value (.err c)) :
    refreshStep ctx s l t =
      .next s l (t ++ [.upsert ⟨s.id, s.projectId, s.name, s.cwd⟩]) := by
  simp [refreshStep, h]

theorem extractSessionId_of_find (msgs : List SDKMessage) (sid : String)
    (h : msgs.find? (fun m => isResultMessage m) = some (.result sid)) :
    extractSessionId msgs = some sid := by
  induction msgs with
  | nil => simp [List.find?] at h
  | cons m rest ih =>
    cases m with
    | result s =>
      have hp : isResultMessage (SDKMessage.result s) = true := rfl
      rw [List.find?_cons_of_pos _ hp] at h
      have : s = sid := by
        injection h with h2
        injection h2
      subst this
      simp [extractSessionId]
    | other s =>
      have hp : isResultMessage (SDKMessage.other s) = false := rfl
      rw [List.find?_cons_of_neg _ (by simp [hp])] at h
      have := ih h
      simpa [extractSessionId] using this

theorem extractSessionId_none_of_no_result (msgs : List SDKMessage)
    (h : ∀ m ∈ msgs, isResultMessage m = false) :
    extractSessionId msgs = none := by
  induction msgs with
  | nil => rfl
  | cons m rest ih =>
    cases m with
    | result s =>
      have := h (SDKMessage.result s) (by simp)
      simp [isResultMessage] at this
    | other s =>
      have := ih (fun m hm => h m (by simp [hm]))
      simpa [extractSessionId] using this

theorem valid_new_session_cwd (i : StreamInput)
    (h : sendMessageStreamInputValid i = true) (hs : i.sessionId = none) :
    ∃ c, i.cwd = some c ∧ 1 ≤ c.length := by
  simp only [sendMessageStreamInputValid, Bool.and_eq_true, Bool.or_eq_true] at h
  rcases h.2 with h2 | h2
  · rw [hs] at h2
    simp [truthyStr] at h2
  · cases hc : i.cwd with
    | none => rw [hc] at h2; simp [truthyStr] at h2
    | some c =>
      rw [hc] at h2
      simp only [truthyStr, decide_eq_true_eq] at h2
      exact ⟨c, rfl, h2⟩

theorem allowedToolParse_matches (j : Json) (a : String)
    (h : allowedToolParse j = some a) : allowedToolMatches a = true := by
  cases j with
  | str s =>
    simp only [allowedToolParse] at h
    split at h
    · cases h; assumption
    · cases h
  | null => simp [allowedToolParse] at h
  | bool b => simp [allowedToolParse] at h
  | num n => simp [allowedToolParse] at h
  | arr items => simp [allowedToolParse] at h
  | obj fields => simp [allowedToolParse] at h

theorem parseArray_allowedTool_matches (items : List Json) (ts : List String)
    (h : parseArray allowedToolParse items = some ts) :
    ∀ tool ∈ ts, allowedToolMatches tool = true := by
  induction items generalizing ts with
  | nil =>
    simp only [parseArray] at h
    cases h
    simp
  | cons j js ih =>
    simp only [parseArray] at h
    cases hj : allowedToolParse j with
    | none => rw [hj] at h; cases h
    | some a =>
      rw [hj] at h
      cases hr : parseArray allowedToolParse js with
      | none => rw [hr] at h; cases h
      | some tail =>
        rw [hr] at h
        cases h
        intro tool htool
        rcases List.mem_cons.mp htool with h1 | h1
        · subst h1
          exact allowedToolParse_matches j tool hj
        · exact ih tail hr tool h1

theorem parseContinueLiteral_eq (x : Json) (m : String)
    (h : parseContinueLiteral x = some m) : m = "continue" := by
  cases x with
  | str s =>
    simp only [parseContinueLiteral] at h
    split at h
    · cases h
      assumption
    · cases h
  | null => simp [parseContinueLiteral] at h
  | bool b => simp [parseContinueLiteral] at h
  | num n => simp [parseContinueLiteral] at h
  | arr items => simp [parseContinueLiteral] at h
  | obj fields => simp [parseContinueLiteral] at h

theorem continueMessageParse_shape (j : Json) (cm : ContinueMessage)
    (h : continueMessageParse j = some cm) :
    cm.message = "continue" ∧
      ∀ tool ∈ cm.allowedTools, allowedToolMatches tool = true := by
  simp only [continueMessageParse] at h
  cases hm : (j.get "message").bind parseContinueLiteral with
  | none => rw [hm] at h; cases h
  | some m =>
    rw [hm] at h
    cases ha : j.get "allowedTools" with
    | none => rw [ha] at h; cases h
    | some tj =>
      rw [ha] at h
      cases tj with
      | arr items =>
        dsimp only at h
        cases hp : parseArray allowedToolParse items with
        | none => rw [hp] at h; cases h
        | some ts =>
          rw [hp] at h
          cases h
          obtain ⟨x, hx, hxm⟩ := Option.bind_eq_some.mp hm
          exact ⟨parseContinueLiteral_eq x m hxm,
            parseArray_allowedTool_matches items ts hp⟩
      | null => cases h
      | bool b => cases h
      | str s => cases h
      | num n => cases h
      | obj fields => cases h

/-! Claim C10. -/

/-- C10: permissionErrorKeywordsSchema accepts a string exactly when it is
one of the three literals "requested permissions", "haven't granted it
yet" and "permission denied", and rejects every other string. -/
theorem permissionErrorKeywords_exact (s : String) :
    permissionErrorKeywordsParse (.str s) = some s ↔
      (s = "requested permissions" ∨ s = "haven\x27t granted it yet" ∨
        s = "permission denied") := by
  by_cases h1 : s = "requested permissions" <;>
    by_cases h2 : s = "haven\x27t granted it yet" <;>
      by_cases h3 : s = "permission denied" <;>
        simp [permissionErrorKeywordsParse, h1, h2, h3]

/-! Claim C9. -/

/-- C9 counterexample: the authorization-state schema accepts the raw
value with isWaitingForPermission true and pendingRequest null, so the
state type does admit a value with the flag set and no pending request,
contrary to the claimed if-and-only-if invariant. -/
theorem authorizationState_waiting_without_request_admitted :
    authorizationStateParse
        (.obj [("isWaitingForPermission", .bool true),
          ("pendingRequest", .null)]) =
      some ⟨true, none⟩ := rfl

/-- C9 amended: authorizationStateSchema only checks the field shapes (a
boolean and a nullable permission request); every combination of the flag
and an optional pending request is admitted, including both combinations
that violate the claimed invariant, which is therefore not enforced by
the state type. -/
theorem authorizationState_admits_all_combinations (b : Bool)
    (r : Option PermissionRequest) :
    ∃ j, authorizationStateParse j = some ⟨b, r⟩ := by
  cases r with
  | none =>
    exact ⟨.obj [("isWaitingForPermission", .bool b), ("pendingRequest", .null)],
      rfl⟩
  | some pr =>
    obtain ⟨tn, tc, otu⟩ := pr
    obtain ⟨i, n, inp⟩ := otu
    exact ⟨.obj [("isWaitingForPermission", .bool b),
      ("pendingRequest", .obj [("toolName", .str tn), ("toolCommand", .str tc),
        ("originalToolUse", .obj [("id", .str i), ("name", .str n),
          ("input", .obj inp)])])], rfl⟩

/-! Claim C3. -/

def ctxC3 : Context :=
  { findById := fun _ => .value (.ok none)
    claudeSendMessageStream := fun _ => .value (.ok [SDKMessage.result "abc"])
    upsert := fun s => .value (.ok s) }

def inC3 : StreamInput := ⟨"hi", none, some "/x", some ["Bash no-parens"], none⟩

/-- C3 counterexample: the entry "Bash no-parens" does not match the
tool-grant pattern, yet the whole input passes the initial run schema and
the run proceeds to the agent call with the entry forwarded unchanged, so
the initial call does not reject non-matching allowedTools entries. -/
theorem allowedTools_not_validated_on_run_cex :
    allowedToolMatches "Bash no-parens" = false ∧
    sendMessageStreamInputValid inC3 = true ∧
    (buildClaudeParams inC3 none).allowedTools = some ["Bash no-parens"] ∧
    (sendMessageStream ctxC3 inC3).trace =
      [.claudeCall (buildClaudeParams inC3 none),
        .upsert ⟨"abc", none, none, "/x"⟩, .upsert ⟨"abc", none, none, "/x"⟩] ∧
    (sendMessageStream ctxC3 inC3).result =
      .ok (⟨"abc", none, none, "/x"⟩, [SDKMessage.result "abc"]) := by
  refine ⟨rfl, rfl, rfl, rfl, rfl⟩

/-- C3 amended: the tool-grant pattern is enforced per element only on a
ContinueDirective; the initial run schema accepts arbitrary strings in
allowedTools (its validity never depends on their content), while every
directive accepted by continueMessageSchema carries the literal message
"continue" and only pattern-matching grants. -/
theorem toolGrant_validated_only_on_continue (i : StreamInput)
    (ts1 ts2 : Option (List String)) (j : Json) (cm : ContinueMessage)
    (tool : String)
    (hj : continueMessageParse j = some cm) (ht : tool ∈ cm.allowedTools) :
    sendMessageStreamInputValid { i with allowedTools := ts1 } =
      sendMessageStreamInputValid { i with allowedTools := ts2 } ∧
    cm.message = "continue" ∧ allowedToolMatches tool = true := by
  obtain ⟨hmsg, htools⟩ := continueMessageParse_shape j cm hj
  exact ⟨rfl, hmsg, htools tool ht⟩

def jC3 : Json :=
  .obj [("message", .str "continue"), ("allowedTools", .arr [.str "Bash(ls)"])]

/-- C3 witness: instantiation of the amended theorem at the directive
carrying the single grant "Bash(ls)". -/
theorem toolGrant_validated_only_on_continue_witness :
    sendMessageStreamInputValid
        { inC3 with allowedTools := some ["Bash no-parens"] } =
      sendMessageStreamInputValid { inC3 with allowedTools := none } ∧
    ("continue" : String) = "continue" ∧ allowedToolMatches "Bash(ls)" = true :=
  toolGrant_validated_only_on_continue inC3 (some ["Bash no-parens"]) none jC3
    ⟨"continue", ["Bash(ls)"]⟩ "Bash(ls)" rfl (by simp)

/-! Claim C5. -/

/-- C5: an input missing both sessionId and cwd fails the schema, and any
input failing the schema makes run return the validation ApplicationError
with no store read, no store write and no agent call. -/
theorem run_invalid_input_no_side_effects (ctx : Context) (input : StreamInput)
    (h : (input.sessionId = none ∧ input.cwd = none) ∨
      sendMessageStreamInputValid input = false) :
    sendMessageStreamInputValid input = false ∧
    (sendMessageStream ctx input).result =
      .err ⟨"Invalid input", some .validationIssue⟩ ∧
    (sendMessageStream ctx input).logs = ["Input validation failed"] ∧
    (sendMessageStream ctx input).trace = [] := by
  have hval : sendMessageStreamInputValid input = false := by
    rcases h with ⟨h1, h2⟩ | h2
    · simp [sendMessageStreamInputValid, truthyStr, h1, h2]
    · exact h2
  refine ⟨hval, ?_, ?_, ?_⟩ <;> simp [sendMessageStream, validate, hval]

def ctxC5 : Context :=
  { findById := fun _ => .thrown "unused"
    claudeSendMessageStream := fun _ => .thrown "unused"
    upsert := fun _ => .thrown "unused" }

def inC5 : StreamInput := ⟨"hi", none, none, none, none⟩

/-- C5 witness: the input with a message but neither sessionId nor cwd. -/
theorem run_invalid_input_no_side_effects_witness :
    sendMessageStreamInputValid inC5 = false ∧
    (sendMessageStream ctxC5 inC5).result =
      .err ⟨"Invalid input", some .validationIssue⟩ ∧
    (sendMessageStream ctxC5 inC5).logs = ["Input validation failed"] ∧
    (sendMessageStream ctxC5 inC5).trace = [] :=
  run_invalid_input_no_side_effects ctxC5 inC5 (.inl ⟨rfl, rfl⟩)

/-! Claim C6. -/

/-- C6: with a sessionId present, a lookup that reports the record absent
makes run fail with the not-found error, and a failing lookup makes run
fail with the wrapping lookup error; in both cases the only collaborator
call is the single findById, so no agent call is issued. -/
theorem run_lookup_failure_no_agent_call (ctx : Context) (input : StreamInput)
    (sid : String) (r : Result (Option Session) String) (e : AppError)
    (hval : sendMessageStreamInputValid input = true)
    (hsid : input.sessionId = some sid)
    (hf : ctx.findById sid = .value r)
    (he : match r with
      | .ok none => e = ⟨"Session not found", none⟩
      | .err c => e = ⟨"Failed to get session", some (.cause c)⟩
      | .ok (some _) => False) :
    (sendMessageStream ctx input).result = .err e ∧
    (sendMessageStream ctx input).trace = [.findById sid] := by
  have hv := validate_ok_self input hval
  have hlen := valid_sessionId_len input sid hval hsid
  cases r with
  | ok os =>
    cases os with
    | none =>
      dsimp only at he
      subst he
      have h1 := resolveSessionStep_absent ctx input [] [] sid hsid hlen hf
      constructor <;>
        simp [sendMessageStream, hv, runBody, bodyUntilRefresh, h1, Step.bind]
    | some s => exact he.elim
  | err c =>
    dsimp only at he
    subst he
    have h1 := resolveSessionStep_err ctx input [] [] sid c hsid hlen hf
    constructor <;>
      simp [sendMessageStream, hv, runBody, bodyUntilRefresh, h1, Step.bind]

def ctxC6 : Context :=
  { findById := fun _ => .value (.ok none)
    claudeSendMessageStream := fun _ => .thrown "never reached"
    upsert := fun _ => .thrown "never reached" }

def inC6 : StreamInput := ⟨"go", some "s1", none, none, none⟩

/-- C6 witness: a store that reports session s1 absent. -/
theorem run_lookup_failure_no_agent_call_witness :
    (sendMessageStream ctxC6 inC6).result = .err ⟨"Session not found", none⟩ ∧
    (sendMessageStream ctxC6 inC6).trace = [.findById "s1"] :=
  run_lookup_failure_no_agent_call ctxC6 inC6 "s1" (.ok none)
    ⟨"Session not found", none⟩ rfl rfl rfl rfl

/-! Claim C7. -/

theorem claudeCall_in_trace_of_found (ctx : Context) (input : StreamInput)
    (sid : String) (s : Session)
    (hval : sendMessageStreamInputValid input = true)
    (hsid : input.sessionId = some sid)
    (hf : ctx.findById sid = .value (.ok (some s))) :
    Effect.claudeCall (buildClaudeParams input (some s)) ∈
      (sendMessageStream ctx input).trace := by
  have hv := validate_ok_self input hval
  have hlen := valid_sessionId_len input sid hval hsid
  have h1 := resolveSessionStep_found ctx input [] [] sid s hsid hlen hf
  cases hcl : ctx.claudeSendMessageStream (buildClaudeParams input (some s)) with
  | thrown e =>
    have h2 := claudeCallStep_thrown ctx input (some s) [] [.findById sid] e hcl
    simp [sendMessageStream, hv, runBody, bodyUntilRefresh, h1, h2, Step.bind]
  | value r =>
    cases r with
    | err c =>
      simp [sendMessageStream, hv, runBody, bodyUntilRefresh, h1, Step.bind,
        claudeCallStep, hcl]
    | ok msgs =>
      have h2 := claudeCallStep_ok ctx input (some s) [] [.findById sid] msgs hcl
      have h3 := createSessionStep_existing ctx input (some s) msgs []
        [.findById sid, .claudeCall (buildClaudeParams input (some s))]
        sid hsid hlen
      cases hup : ctx.upsert ⟨s.id, s.projectId, s.name, s.cwd⟩ with
      | thrown e =>
        simp [sendMessageStream, hv, runBody, bodyUntilRefresh, h1, h2, h3,
          Step.bind, nullCheckStep, refreshStep, hup]
      | value r2 =>
        cases r2 with
        | err c =>
          simp [sendMessageStream, hv, runBody, bodyUntilRefresh, h1, h2, h3,
            Step.bind, nullCheckStep, refreshStep, hup]
        | ok s2 =>
          simp [sendMessageStream, hv, runBody, bodyUntilRefresh, h1, h2, h3,
            Step.bind, nullCheckStep, refreshStep, hup]

theorem claudeCall_in_trace_new_session (ctx : Context) (input : StreamInput)
    (hval : sendMessageStreamInputValid input = true)
    (hsid : input.sessionId = none) :
    Effect.claudeCall (buildClaudeParams input none) ∈
      (sendMessageStream ctx input).trace := by
  have hv := validate_ok_self input hval
  obtain ⟨c, hc, hclen⟩ := valid_new_session_cwd input hval hsid
  have hc0 : ¬ c.length = 0 := by omega
  have h1 := resolveSessionStep_none ctx input [] [] hsid
  cases hcl : ctx.claudeSendMessageStream (buildClaudeParams input none) with
  | thrown e =>
    have h2 := claudeCallStep_thrown ctx input none [] [] e hcl
    simp [sendMessageStream, hv, runBody, bodyUntilRefresh, h1, h2, Step.bind]
  | value r =>
    cases r with
    | err cc =>
      simp [sendMessageStream, hv, runBody, bodyUntilRefresh, h1, Step.bind,
        claudeCallStep, hcl]
    | ok msgs =>
      have h2 := claudeCallStep_ok ctx input none [] [] msgs hcl
      cases hp : sessionIdParse (extractSessionId msgs) with
      | error ex =>
        simp [sendMessageStream, hv, runBody, bodyUntilRefresh, h1, h2,
          Step.bind, createSessionStep, truthyStr, hsid, hc, hc0, hp]
      | ok sid2 =>
        cases hup : ctx.upsert ⟨sid2, none, none, c⟩ with
        | thrown ex =>
          simp [sendMessageStream, hv, runBody, bodyUntilRefresh, h1, h2,
            Step.bind, createSessionStep, truthyStr, hsid, hc, hc0, hp, hup]
        | value r2 =>
          cases r2 with
          | err cc =>
            simp [sendMessageStream, hv, runBody, bodyUntilRefresh, h1, h2,
              Step.bind, createSessionStep, truthyStr, hsid, hc, hc0, hp, hup]
          | ok s2 =>
            cases hup2 : ctx.upsert ⟨s2.id, s2.projectId, s2.name, s2.cwd⟩ with
            | thrown ex =>
              simp [sendMessageStream, hv, runBody, bodyUntilRefresh, h1, h2,
                Step.bind, createSessionStep, truthyStr, hsid, hc, hc0, hp, hup,
                nullCheckStep, refreshStep, hup2]
            | value r3 =>
              cases r3 with
              | err c3 =>
                simp [sendMessageStream, hv, runBody, bodyUntilRefresh, h1, h2,
                  Step.bind, createSessionStep, truthyStr, hsid, hc, hc0, hp,
                  hup, nullCheckStep, refreshStep, hup2]
              | ok s3 =>
                simp [sendMessageStream, hv, runBody, bodyUntilRefresh, h1, h2,
                  Step.bind, createSessionStep, truthyStr, hsid, hc, hc0, hp,
                  hup, nullCheckStep, refreshStep, hup2]

/-- C7: the cwd forwarded to the agent is the caller-supplied cwd when
present (on both the new-session path, where the resolved session is
null, and the existing-session path) and otherwise the resolved session
cwd; the claude call with exactly these parameters is issued by the
run. -/
theorem run_effective_cwd (ctx : Context) (input : StreamInput)
    (sess : Option Session) (effcwd : String)
    (hval : sendMessageStreamInputValid input = true)
    (hsess : match input.sessionId with
      | none => sess = none
      | some sid => ctx.findById sid = .value (.ok sess) ∧ sess.isSome = true)
    (hexp : match input.cwd, sess with
      | some c, _ => effcwd = c
      | none, some s => effcwd = s.cwd
      | none, none => False) :
    (buildClaudeParams input sess).cwd = some effcwd ∧
    Effect.claudeCall (buildClaudeParams input sess) ∈
      (sendMessageStream ctx input).trace := by
  have hmem : Effect.claudeCall (buildClaudeParams input sess) ∈
      (sendMessageStream ctx input).trace := by
    cases hs : input.sessionId with
    | none =>
      rw [hs] at hsess
      dsimp only at hsess
      subst hsess
      exact claudeCall_in_trace_new_session ctx input hval hs
    | some sid =>
      rw [hs] at hsess
      dsimp only at hsess
      obtain ⟨hf, hsome⟩ := hsess
      obtain ⟨s, rfl⟩ := Option.isSome_iff_exists.mp hsome
      exact claudeCall_in_trace_of_found ctx input sid s hval hs hf
  refine ⟨?_, hmem⟩
  cases hc : input.cwd with
  | some c =>
    rw [hc] at hexp
    dsimp only at hexp
    have hclen := valid_cwd_len input c hval hc
    rw [hexp]
    simp [buildClaudeParams, truthyStr, hc, hclen]
  | none =>
    rw [hc] at hexp
    cases sess with
    | none => exact hexp.elim
    | some s =>
      dsimp only at hexp
      rw [hexp]
      simp [buildClaudeParams, truthyStr, hc]

def sC7 : Session := ⟨"s1", none, none, "/work"⟩

def ctxC7 : Context :=
  { findById := fun _ => .value (.ok (some sC7))
    claudeSendMessageStream := fun _ => .value (.ok [SDKMessage.result "s1"])
    upsert := fun s => .value (.ok s) }

def inC7 : StreamInput := ⟨"go", some "s1", none, none, none⟩

/-- C7 witness: the spec example with session s1 at /work and an input
that omits cwd. -/
theorem run_effective_cwd_witness :
    (buildClaudeParams inC7 (some sC7)).cwd = some "/work" ∧
    Effect.claudeCall (buildClaudeParams inC7 (some sC7)) ∈
      (sendMessageStream ctxC7 inC7).trace :=
  run_effective_cwd ctxC7 inC7 (some sC7) "/work" rfl ⟨rfl, rfl⟩ rfl

/-! Claim C8. -/

/-- C8: the embedding of run is a total function into tagged results, and
whenever the body raises an exception (for example a throwing
collaborator) the boundary catch wraps it as the generic orchestrator
error value instead of letting it propagate. -/
theorem run_wraps_thrown_faults (ctx : Context) (input : StreamInput)
    (x : String) (l : Logs) (t : Trace)
    (hval : sendMessageStreamInputValid input = true)
    (hb : runBody ctx input = .threw x l t) :
    (sendMessageStream ctx input).result =
      .err ⟨"Unexpected error in sendMessageStream", some (.exn x)⟩ ∧
    (sendMessageStream ctx input).logs = l ++ ["Unexpected error occurred"] := by
  have hv := validate_ok_self input hval
  constructor <;> simp [sendMessageStream, hv, hb]

def ctxC8 : Context :=
  { findById := fun _ => .value (.ok none)
    claudeSendMessageStream := fun _ => .thrown "boom"
    upsert := fun s => .value (.ok s) }

def inC8 : StreamInput := ⟨"hi", none, some "/x", none, none⟩

/-- C8 witness: a claude service that throws instead of returning a
result. -/
theorem run_wraps_thrown_faults_witness :
    (sendMessageStream ctxC8 inC8).result =
      .err ⟨"Unexpected error in sendMessageStream", some (.exn "boom")⟩ ∧
    (sendMessageStream ctxC8 inC8).logs = [] ++ ["Unexpected error occurred"] :=
  run_wraps_thrown_faults ctxC8 inC8 "boom" []
    [.claudeCall (buildClaudeParams inC8 none)] rfl rfl

/-! Claim C1. -/

/-- C1: on a successful new-session call whose first result message among
the returned messages carries sid, run creates the session via upsert
with that id, the caller-supplied cwd and absent projectId and name, and
returns that session together with the full buffered message sequence
(the store is assumed to return the record it was given, as in the spec
example). -/
theorem run_new_session_creates (ctx : Context) (input : StreamInput)
    (c sid : String) (msgs : List SDKMessage)
    (hval : sendMessageStreamInputValid input = true)
    (hsid : input.sessionId = none)
    (hcwd : input.cwd = some c)
    (hclaude : ctx.claudeSendMessageStream (buildClaudeParams input none) =
      .value (.ok msgs))
    (hfind : msgs.find? (fun m => isResultMessage m) = some (.result sid))
    (hslen : 1 ≤ sid.length)
    (hup : ctx.upsert ⟨sid, none, none, c⟩ = .value (.ok ⟨sid, none, none, c⟩)) :
    (sendMessageStream ctx input).result = .ok (⟨sid, none, none, c⟩, msgs) ∧
    (sendMessageStream ctx input).trace =
      [.claudeCall (buildClaudeParams input none),
        .upsert ⟨sid, none, none, c⟩, .upsert ⟨sid, none, none, c⟩] := by
  have hv := validate_ok_self input hval
  have hclen := valid_cwd_len input c hval hcwd
  have hex := extractSessionId_of_find msgs sid hfind
  have h1 := resolveSessionStep_none ctx input [] [] hsid
  have h2 := claudeCallStep_ok ctx input none [] [] msgs hclaude
  have h3 := createSessionStep_new_ok ctx input none msgs []
    [.claudeCall (buildClaudeParams input none)] c sid ⟨sid, none, none, c⟩
    hsid hcwd hclen hex hslen hup
  have h4 := refreshStep_ok ctx ⟨sid, none, none, c⟩ ⟨sid, none, none, c⟩ []
    [.claudeCall (buildClaudeParams input none), .upsert ⟨sid, none, none, c⟩]
    hup
  constructor <;>
    simp [sendMessageStream, hv, runBody, bodyUntilRefresh, h1, h2, h3, h4,
      Step.bind, nullCheckStep]

def ctxC1 : Context :=
  { findById := fun _ => .value (.ok none)
    claudeSendMessageStream := fun _ => .value (.ok [SDKMessage.result "abc"])
    upsert := fun s => .value (.ok s) }

def inC1 : StreamInput := ⟨"hi", none, some "/tmp/x", none, none⟩

/-- C1 witness: the spec example, message hi, cwd /tmp/x, one result
message with session id abc. -/
theorem run_new_session_creates_witness :
    (sendMessageStream ctxC1 inC1).result =
      .ok (⟨"abc", none, none, "/tmp/x"⟩, [SDKMessage.result "abc"]) ∧
    (sendMessageStream ctxC1 inC1).trace =
      [.claudeCall (buildClaudeParams inC1 none),
        .upsert ⟨"abc", none, none, "/tmp/x"⟩,
        .upsert ⟨"abc", none, none, "/tmp/x"⟩] :=
  run_new_session_creates ctxC1 inC1 "/tmp/x" "abc" [SDKMessage.result "abc"]
    rfl rfl rfl rfl rfl (by decide) rfl

/-! Claim C2. -/

/-- C2 amended: when everything up to the trailing refresh upsert has
succeeded and that refresh upsert returns an error, run still returns
success with the full message aggregate and the pre-refresh session; the
failure is swallowed silently and in particular no log entry is written
for it (logs are exactly those accumulated before the refresh). -/
theorem run_refresh_failure_swallowed (ctx : Context) (input : StreamInput)
    (s : Session) (msgs : List SDKMessage) (l : Logs) (t : Trace) (c : String)
    (hval : sendMessageStreamInputValid input = true)
    (hb : bodyUntilRefresh ctx input = .next (s, msgs) l t)
    (hr : ctx.upsert ⟨s.id, s.projectId, s.name, s.cwd⟩ = .value (.err c)) :
    (sendMessageStream ctx input).result = .ok (s, msgs) ∧
    (sendMessageStream ctx input).logs = l ∧
    (sendMessageStream ctx input).trace =
      t ++ [.upsert ⟨s.id, s.projectId, s.name, s.cwd⟩] := by
  have hv := validate_ok_self input hval
  have h4 := refreshStep_err ctx s l t c hr
  refine ⟨?_, ?_, ?_⟩ <;> simp [sendMessageStream, hv, runBody, hb, h4, Step.bind]

def sC2 : Session := ⟨"s1", none, none, "/work"⟩

def ctxC2 : Context :=
  { findById := fun _ => .value (.ok (some sC2))
    claudeSendMessageStream := fun _ => .value (.ok [SDKMessage.result "s1"])
    upsert := fun _ => .value (.err "disk full") }

def inC2 : StreamInput := ⟨"go", some "s1", none, none, none⟩

/-- C2 counterexample: the refresh upsert fails on this run, the run still
returns success with the pre-refresh session, yet the log list is empty,
so the refresh failure is not logged (the claim says it is). -/
theorem refresh_failure_not_logged_cex :
    ctxC2.upsert ⟨"s1", none, none, "/work"⟩ = .value (.err "disk full") ∧
    (sendMessageStream ctxC2 inC2).trace =
      [.findById "s1", .claudeCall (buildClaudeParams inC2 (some sC2)),
        .upsert ⟨"s1", none, none, "/work"⟩] ∧
    (sendMessageStream ctxC2 inC2).result = .ok (sC2, [SDKMessage.result "s1"]) ∧
    (sendMessageStream ctxC2 inC2).logs = [] :=
  ⟨rfl, rfl, rfl, rfl⟩

/-- C2 witness: instantiation of the amended theorem at the failing-store
run. -/
theorem run_refresh_failure_swallowed_witness :
    (sendMessageStream ctxC2 inC2).result = .ok (sC2, [SDKMessage.result "s1"]) ∧
    (sendMessageStream ctxC2 inC2).logs = [] ∧
    (sendMessageStream ctxC2 inC2).trace =
      [.findById "s1", .claudeCall (buildClaudeParams inC2 (some sC2))] ++
        [.upsert ⟨"s1", none, none, "/work"⟩] :=
  run_refresh_failure_swallowed ctxC2 inC2 sC2 [SDKMessage.result "s1"] []
    [.findById "s1", .claudeCall (buildClaudeParams inC2 (some sC2))]
    "disk full" rfl rfl rfl

/-! Claim C4. -/

/-- C4 amended: on a new-session call where the agent returns no result
message, run fails, but with the generic boundary error (the missing
identifier makes the session-id parse throw and the catch wraps it); no
dedicated MissingSessionIdError exists, and no session record is created
(the only collaborator call is the claude call). -/
theorem run_missing_result_generic_error (ctx : Context) (input : StreamInput)
    (msgs : List SDKMessage)
    (hval : sendMessageStreamInputValid input = true)
    (hsid : input.sessionId = none)
    (hclaude : ctx.claudeSendMessageStream (buildClaudeParams input none) =
      .value (.ok msgs))
    (hnores : ∀ m ∈ msgs, isResultMessage m = false) :
    (sendMessageStream ctx input).result =
      .err ⟨"Unexpected error in sendMessageStream",
        some (.exn "ZodError: expected string, received undefined")⟩ ∧
    (sendMessageStream ctx input).trace =
      [.claudeCall (buildClaudeParams input none)] := by
  have hv := validate_ok_self input hval
  obtain ⟨c, hc, hclen⟩ := valid_new_session_cwd input hval hsid
  have hex := extractSessionId_none_of_no_result msgs hnores
  have h1 := resolveSessionStep_none ctx input [] [] hsid
  have h2 := claudeCallStep_ok ctx input none [] [] msgs hclaude
  have h3 := createSessionStep_new_noid ctx input none msgs []
    [.claudeCall (buildClaudeParams input none)] c hsid hc hclen hex
  constructor <;>
    simp [sendMessageStream, hv, runBody, bodyUntilRefresh, h1, h2, h3,
      Step.bind]

def ctxC4 : Context :=
  { findById := fun _ => .value (.ok none)
    claudeSendMessageStream := fun _ => .value (.ok [SDKMessage.other "assistant"])
    upsert := fun s => .value (.ok s) }

def inC4 : StreamInput := ⟨"hi", none, some "/tmp", none, none⟩

/-- C4 counterexample: on this new-session run the agent returns only a
non-result message; run fails with the generic catch-all orchestrator
error wrapping a thrown parse error, not with a dedicated tagged
MissingSessionIdError, and no upsert is issued. -/
theorem missing_result_generic_error_cex :
    (sendMessageStream ctxC4 inC4).result =
      .err ⟨"Unexpected error in sendMessageStream",
        some (.exn "ZodError: expected string, received undefined")⟩ ∧
    (sendMessageStream ctxC4 inC4).trace =
      [.claudeCall (buildClaudeParams inC4 none)] ∧
    (sendMessageStream ctxC4 inC4).logs = ["Unexpected error occurred"] :=
  ⟨rfl, rfl, rfl⟩

/-- C4 witness: instantiation of the amended theorem at the run whose only
message is a non-result message. -/
theorem run_missing_result_generic_error_witness :
    (sendMessageStream ctxC4 inC4).result =
      .err ⟨"Unexpected error in sendMessageStream",
        some (.exn "ZodError: expected string, received undefined")⟩ ∧
    (sendMessageStream ctxC4 inC4).trace =
      [.claudeCall (buildClaudeParams inC4 none)] :=
  run_missing_result_generic_error ctxC4 inC4 [SDKMessage.other "assistant"]
    rfl rfl rfl (by decide)

end CCW
